import Mathlib

/-
  Verification development for the grok-news-arb repository.

  Shallow embedding conventions:
  * Text is modelled as `List Char`; the JavaScript string primitives used
    by the code (`toLowerCase`, `trim`, `replace(/[^\w\s]/g,'')`,
    `split(' ')`) are modelled character by character on ASCII, mirroring
    their semantics.
  * JavaScript numbers are modelled as rationals (`ℚ`), so arithmetic is
    exact; `Math.round x` is `⌊x + 1/2⌋` (round half toward +∞), which is
    its behaviour away from floating-point edge cases.
  * Division in `ℚ` yields `0` at denominator `0` where JavaScript would
    yield `Infinity`/`NaN`; no claim below depends on such a quotient
    (`similarity` never divides by zero, see `unionTokens_length_pos`).
  * The module-level `seenHeadlines : Set<string>` of the monitor is
    modelled as an explicit insertion-ordered duplicate-free list threaded
    through `isNewHeadline` (a JavaScript `Set` preserves insertion order
    and `values().next().value` is its oldest element).
  * Human-readable `reasoning` strings are not modelled; no claim
    concerns them.
-/

namespace GrokNewsArb

abbrev Text := List Char

/-- JS `\w` character class: `[A-Za-z0-9_]` (ASCII). -/
def isWordCharB (c : Char) : Bool :=
  (('a' ≤ c && c ≤ 'z') || ('A' ≤ c && c ≤ 'Z') || ('0' ≤ c && c ≤ '9') || c = '_')

/-- JS `\s` character class, restricted to the ASCII whitespace the model uses. -/
def isSpaceB (c : Char) : Bool :=
  (c = ' ' || c = '\t' || c = '\n' || c = '\r')

/-- JS `String.prototype.trim`: drop leading and trailing whitespace. -/
def trimText (l : Text) : Text :=
  ((l.dropWhile isSpaceB).reverse.dropWhile isSpaceB).reverse

/-- Embeds `headline.toLowerCase().trim().replace(/[^\w\s]/g, '')`
(monitor source, `isNewHeadline`). -/
def normalizeHeadline (l : Text) : Text :=
  (trimText (l.map Char.toLower)).filter (fun c => isWordCharB c || isSpaceB c)

/-- JS `s.split(' ')`: split on single spaces, keeping empty pieces; the
result is always nonempty (`''.split(' ')` is `['']`). -/
def splitOnSpace : Text → List Text
  | [] => [[]]
  | c :: rest =>
    if c = ' ' then [] :: splitOnSpace rest
    else
      match splitOnSpace rest with
      | t :: ts => (c :: t) :: ts
      | [] => [[c]]

/-- The distinct tokens of a string, mirroring `new Set(a.split(' '))`. -/
def tokens (t : Text) : List Text :=
  (splitOnSpace t).dedup

/-- Intersection token list: `[...setA].filter(x => setB.has(x))`. -/
def interTokens (a b : Text) : List Text :=
  (tokens a).filter (fun x => x ∈ tokens b)

/-- Union token list: `new Set([...setA, ...setB])`, realised as the
tokens of `a` followed by the tokens of `b` not already present. -/
def unionTokens (a b : Text) : List Text :=
  tokens a ++ (tokens b).filter (fun x => x ∉ tokens a)

/-- Embeds the monitor `similarity` function (Jaccard):
`intersection.size / union.size`. -/
def similarity (a b : Text) : ℚ :=
  ((interTokens a b).length : ℚ) / ((unionTokens a b).length : ℚ)

/-- State of the monitor dedup cache `seenHeadlines`, oldest entry first. -/
structure DedupState where
  seen : List Text
deriving DecidableEq, Repr

/-- Embeds the monitor `isNewHeadline`: normalize, exact lookup, fuzzy scan
(similarity > 0.8), register, evict the oldest entry when the size exceeds
1000.  Returns the boolean result together with the updated state. -/
def isNewHeadline (st : DedupState) (headline : Text) : Bool × DedupState :=
  if normalizeHeadline headline ∈ st.seen then (false, st)
  else if ∃ s ∈ st.seen, (0.8 : ℚ) < similarity (normalizeHeadline headline) s then
    (false, st)
  else
    (true,
      ⟨if 1000 < (st.seen ++ [normalizeHeadline headline]).length then
          (st.seen ++ [normalizeHeadline headline]).tail
        else st.seen ++ [normalizeHeadline headline]⟩)

/-- Folding `isNewHeadline` over a list of headlines, keeping only the state
(the monitor calls it once per incoming headline). -/
def runDedup (st : DedupState) (hs : List Text) : DedupState :=
  hs.foldl (fun s h => (isNewHeadline s h).2) st

/-- Direction values `newsDirection` of the fair-value tool (`z.enum(['positive', 'negative',
'neutral'])`); the monitor's `direction` strings take the same three values. -/
inductive NewsDir
  | positive
  | negative
  | neutral
deriving DecidableEq, Repr

/-- Signal labels of `FairValueEstimate` (tool path) and of the monitor's
`AffectedMarket.signal` (upper-case spelling in source). -/
inductive Signal
  | strong_buy
  | buy
  | hold
  | sell
  | strong_sell
deriving DecidableEq, Repr

/-- The `direction` component returned by `getSignal`
(`'long' | 'short' | 'hold'`). -/
inductive TradeDir
  | long
  | short
  | hold
deriving DecidableEq, Repr

/-- Embeds `calculateBaseShift(magnitude, direction)` from the fair-value
tool: three magnitude bands, then the direction modifier. -/
def calculateBaseShift (magnitude : ℚ) (direction : NewsDir) : ℚ :=
  let shift : ℚ :=
    if magnitude > 0.8 then 0.15 + (magnitude - 0.8) * 0.5
    else if magnitude > 0.5 then 0.05 + (magnitude - 0.5) * 0.33
    else magnitude * 0.1
  if direction = NewsDir.negative then -shift
  else if direction = NewsDir.neutral then shift * 0.2
  else shift

/-- Embeds `getSignal(edge, confidence, liquidity)` from the fair-value
tool: liquidity floor, confidence floor, then edge thresholds. -/
def getSignal (edge confidence liquidity : ℚ) : Signal × TradeDir :=
  let edgeAbs := |edge|
  if liquidity < 10000 then (Signal.hold, TradeDir.hold)
  else if confidence < 0.5 then (Signal.hold, TradeDir.hold)
  else
    let direction := if edge > 0 then TradeDir.long
      else if edge < 0 then TradeDir.short else TradeDir.hold
    if edgeAbs > 0.15 ∧ confidence > 0.7 then
      ((if edge > 0 then Signal.strong_buy else Signal.strong_sell), direction)
    else if edgeAbs > 0.08 ∧ confidence > 0.6 then
      ((if edge > 0 then Signal.buy else Signal.sell), direction)
    else if edgeAbs > 0.05 then
      ((if edge > 0 then Signal.buy else Signal.sell), direction)
    else (Signal.hold, TradeDir.hold)

/-- Rounding `Math.round(x * 100) / 100` to 2 decimal places. -/
def round2 (x : ℚ) : ℚ :=
  ((⌊x * 100 + 0.5⌋ : ℤ) : ℚ) / 100

/-- Rounding `Math.round(x * 10) / 10` to 1 decimal place. -/
def round1 (x : ℚ) : ℚ :=
  ((⌊x * 10 + 0.5⌋ : ℤ) : ℚ) / 10

/-- The clamp `Math.max(0.01, Math.min(0.99, v))` applied to the raw fair
value on both the tool path and the monitor path. -/
def clampPrice (v : ℚ) : ℚ :=
  max 0.01 (min 0.99 v)

/-- Raw (pre-rounding) fair value of the tool path:
`clamp(currentYesPrice + calculateBaseShift(...) * newsConfidence)`. -/
def fairValueRaw (currentYesPrice newsMagnitude : ℚ) (newsDirection : NewsDir)
    (newsConfidence : ℚ) : ℚ :=
  clampPrice (currentYesPrice + calculateBaseShift newsMagnitude newsDirection * newsConfidence)

/-- The record returned by the `estimateFairValue` tool (the `estimate`
field of its result; the `reasoning` string is not modelled). -/
structure FairValueEstimate where
  currentPrice : ℚ
  fairValue : ℚ
  edge : ℚ
  edgePercent : ℚ
  confidence : ℚ
  direction : TradeDir
  signal : Signal
  entryPrice : ℚ
  targetPrice : ℚ
  stopLoss : ℚ
  riskReward : ℚ
deriving DecidableEq, Repr

/-- Embeds the `execute` body of the `estimateFairValue` tool: base shift,
confidence adjustment, clamped fair value, edge, signal, entry/target/stop
levels, rounding of outputs. -/
def estimateFairValue (currentYesPrice newsMagnitude : ℚ) (newsDirection : NewsDir)
    (newsConfidence liquidity : ℚ) : FairValueEstimate :=
  let fairValue := fairValueRaw currentYesPrice newsMagnitude newsDirection newsConfidence
  let edge := fairValue - currentYesPrice
  let edgePercent := edge / currentYesPrice * 100
  let sd := getSignal edge newsConfidence liquidity
  let entryPrice :=
    if sd.2 = TradeDir.long then min (currentYesPrice + 0.02) (fairValue - 0.03)
    else max (currentYesPrice - 0.02) (fairValue + 0.03)
  let targetPrice := fairValue
  let stopLoss :=
    if sd.2 = TradeDir.long then currentYesPrice - 0.10 else currentYesPrice + 0.10
  let riskReward := |targetPrice - entryPrice| / |entryPrice - stopLoss|
  { currentPrice := currentYesPrice
    fairValue := round2 fairValue
    edge := round2 edge
    edgePercent := round1 edgePercent
    confidence := newsConfidence
    direction := sd.2
    signal := sd.1
    entryPrice := round2 entryPrice
    targetPrice := round2 targetPrice
    stopLoss := round2 stopLoss
    riskReward := round1 riskReward }

/-- Action values of `generateTradeRecommendation`. -/
inductive Action
  | BUY
  | SELL
  | HOLD
deriving DecidableEq, Repr

/-- Side values (`'YES' | 'NO'`). -/
inductive Side
  | YES
  | NO
deriving DecidableEq, Repr

/-- Confidence labels (`'HIGH' | 'MEDIUM' | 'LOW'`). -/
inductive ConfLabel
  | HIGH
  | MEDIUM
  | LOW
deriving DecidableEq, Repr

/-- Quantization `Math.round(x / 25) * 25` to the nearest $25. -/
def roundTo25 (x : ℚ) : ℚ :=
  ((⌊x / 25 + 0.5⌋ : ℤ) : ℚ) * 25

/-- The numeric/enumerated fields of the record returned by
`generateTradeRecommendation` (identifier, platform and `reasoning` text
are not modelled). -/
structure TradeRecommendation where
  action : Action
  side : Side
  edge : ℚ
  edgePercent : ℚ
  suggestedSize : ℚ
  contracts : ℤ
  expectedProfit : ℚ
  confidence : ConfLabel
  entryLimit : ℚ
  stopLoss : ℚ
  takeProfit : ℚ
deriving DecidableEq, Repr

/-- Embeds the `execute` body of the `generateTradeRecommendation` tool:
action thresholds at ±0.03, multiplicative size scaling by edge and by
liquidity, $25 quantization and the [$25, maxPositionSize] clamp. -/
def generateTradeRecommendation (currentPrice fairValue edge liquidity
    maxPositionSize : ℚ) : TradeRecommendation :=
  let direction := if edge > 0 then TradeDir.long else TradeDir.short
  let side := if direction = TradeDir.long then Side.YES else Side.NO
  let edgeAbs := |edge|
  let size1 :=
    if edgeAbs < 0.05 then maxPositionSize * 0.5
    else if edgeAbs < 0.10 then maxPositionSize * 0.75
    else maxPositionSize
  let size2 :=
    if liquidity < 20000 then size1 * 0.5
    else if liquidity < 50000 then size1 * 0.75
    else size1
  let suggestedSize := max 25 (min maxPositionSize (roundTo25 size2))
  let entryPrice := if direction = TradeDir.long then currentPrice else 1 - currentPrice
  let exitPrice := if direction = TradeDir.long then fairValue else 1 - fairValue
  let contracts := ⌊suggestedSize / entryPrice⌋
  let expectedProfit := (contracts : ℚ) * (exitPrice - entryPrice)
  let confidence :=
    if edgeAbs > 0.15 then ConfLabel.HIGH
    else if edgeAbs > 0.08 then ConfLabel.MEDIUM else ConfLabel.LOW
  { action :=
      if edge > 0.03 then Action.BUY else if edge < -0.03 then Action.SELL else Action.HOLD
    side := side
    edge := round2 edge
    edgePercent := round1 (edge / currentPrice * 100)
    suggestedSize := suggestedSize
    contracts := contracts
    expectedProfit := round2 expectedProfit
    confidence := confidence
    entryLimit :=
      round2 (if direction = TradeDir.long then currentPrice + 0.02 else currentPrice - 0.02)
    stopLoss :=
      round2 (if direction = TradeDir.long then currentPrice - 0.12 else currentPrice + 0.12)
    takeProfit := round2 fairValue }

/-- Magnitude labels of the monitor's `NewsItem` (`'HIGH'|'MEDIUM'|'LOW'`). -/
inductive MagLabel
  | HIGH
  | MEDIUM
  | LOW
deriving DecidableEq, Repr

/-- The monitor's `newsAnalysis` argument to `calculateFairValue`. -/
structure NewsAnalysis where
  magnitude : MagLabel
  direction : NewsDir
  confidence : ℚ
deriving DecidableEq, Repr

/-- Market venues. -/
inductive Venue
  | KALSHI
  | POLYMARKET
deriving DecidableEq, Repr

/-- The monitor's `AffectedMarket` record; the optional fair-value fields
are `none` until `calculateFairValue` fills them (and stay `none` for the
trade fields when the computed signal is HOLD). -/
structure AffectedMarket where
  venue : Venue
  id : Text
  question : Text
  similarityScore : ℚ
  currentPrice : Option ℚ
  fairValue : Option ℚ := none
  edge : Option ℚ := none
  edgePercent : Option ℚ := none
  signal : Option Signal := none
  side : Option Side := none
  entryPrice : Option ℚ := none
  targetPrice : Option ℚ := none
  stopLoss : Option ℚ := none
  suggestedSize : Option ℚ := none
  confidence : Option ConfLabel := none
deriving DecidableEq, Repr

/-- The numeric magnitude the monitor derives from the magnitude label:
`HIGH ? 0.85 : MEDIUM ? 0.5 : 0.25`. -/
def monitorMagnitude : MagLabel → ℚ
  | MagLabel.HIGH => 0.85
  | MagLabel.MEDIUM => 0.5
  | MagLabel.LOW => 0.25

/-- The inlined base-shift computation of the monitor's
`calculateFairValue` (same band formulas and direction modifier as the
tool's `calculateBaseShift`). -/
def monitorBaseShift (magnitude : ℚ) (direction : NewsDir) : ℚ :=
  let baseShift : ℚ :=
    if magnitude > 0.8 then 0.15 + (magnitude - 0.8) * 0.5
    else if magnitude > 0.5 then 0.05 + (magnitude - 0.5) * 0.33
    else magnitude * 0.1
  if direction = NewsDir.negative then -baseShift
  else if direction = NewsDir.neutral then baseShift * 0.2
  else baseShift

/-- The monitor's signal classification (no liquidity or confidence floor;
BUY/SELL from |edge| > 0.08 regardless of confidence). -/
def monitorSignal (edge confidence : ℚ) : Signal :=
  let edgeAbs := |edge|
  if edgeAbs > 0.15 ∧ confidence > 0.7 then
    (if edge > 0 then Signal.strong_buy else Signal.strong_sell)
  else if edgeAbs > 0.08 then (if edge > 0 then Signal.buy else Signal.sell)
  else if edgeAbs > 0.05 then (if edge > 0 then Signal.buy else Signal.sell)
  else Signal.hold

/-- Embeds the monitor's `calculateFairValue(market, newsAnalysis)`:
default price 0.5, label-derived magnitude, inlined base shift, adjustment
by confidence × similarityScore, clamp, edge, signal, trade fields (left
`undefined` when the signal is HOLD), and stop at ±0.12. -/
def calculateFairValue (market : AffectedMarket) (newsAnalysis : NewsAnalysis) :
    AffectedMarket :=
  let currentPrice := market.currentPrice.getD 0.5
  let magnitude := monitorMagnitude newsAnalysis.magnitude
  let baseShift := monitorBaseShift magnitude newsAnalysis.direction
  let adjustedShift := baseShift * newsAnalysis.confidence * market.similarityScore
  let fairValue := clampPrice (currentPrice + adjustedShift)
  let edge := fairValue - currentPrice
  let edgePercent := if currentPrice > 0 then edge / currentPrice * 100 else 0
  let signal := monitorSignal edge newsAnalysis.confidence
  let side := if edge > 0 then Side.YES else Side.NO
  let entryPrice :=
    if edge > 0 then min (currentPrice + 0.02) (fairValue - 0.03)
    else max (currentPrice - 0.02) (fairValue + 0.03)
  let targetPrice := fairValue
  let stopLoss := if edge > 0 then currentPrice - 0.12 else currentPrice + 0.12
  let edgeAbs := |edge|
  let size1 : ℚ :=
    if edgeAbs < 0.05 then 250 * 0.5
    else if edgeAbs < 0.10 then 250 * 0.75
    else 250
  let suggestedSize := roundTo25 size1
  let confidence :=
    if edgeAbs > 0.15 then ConfLabel.HIGH
    else if edgeAbs > 0.08 then ConfLabel.MEDIUM else ConfLabel.LOW
  { market with
    currentPrice := some (round2 currentPrice)
    fairValue := some (round2 fairValue)
    edge := some (round2 edge)
    edgePercent := some (round1 edgePercent)
    signal := if signal = Signal.hold then none else some signal
    side := if signal = Signal.hold then none else some side
    entryPrice := if signal = Signal.hold then none else some (round2 entryPrice)
    targetPrice := if signal = Signal.hold then none else some (round2 targetPrice)
    stopLoss := if signal = Signal.hold then none else some (round2 stopLoss)
    suggestedSize := if signal = Signal.hold then none else some suggestedSize
    confidence := if signal = Signal.hold then none else some confidence }

/-- The `currentPrice ?? 0.5` default of the monitor's `calculateFairValue`. -/
def monitorCurrentPrice (market : AffectedMarket) : ℚ :=
  market.currentPrice.getD 0.5

/-- Raw (pre-rounding) fair value of the monitor path: clamp of
`currentPrice + baseShift × confidence × similarityScore`. -/
def monitorFairValueRaw (market : AffectedMarket) (newsAnalysis : NewsAnalysis) : ℚ :=
  clampPrice (monitorCurrentPrice market +
    monitorBaseShift (monitorMagnitude newsAnalysis.magnitude) newsAnalysis.direction *
      newsAnalysis.confidence * market.similarityScore)

/-- Raw edge of the monitor path: `fairValue - currentPrice`. -/
def monitorEdge (market : AffectedMarket) (newsAnalysis : NewsAnalysis) : ℚ :=
  monitorFairValueRaw market newsAnalysis - monitorCurrentPrice market

/-- Action rule exactly as claim C8 words it: BUY iff edge > 0.03, SELL
iff edge < −0.03, HOLD otherwise. -/
def specAction (edge : ℚ) : Action :=
  if edge > 0.03 then Action.BUY
  else if edge < -0.03 then Action.SELL
  else Action.HOLD

/-- Edge scale factor as claim C8 words it: ×0.5 if |edge| < 0.05,
×0.75 if |edge| < 0.10, else unscaled. -/
def specEdgeFactor (edge : ℚ) : ℚ :=
  if |edge| < 0.05 then 0.5 else if |edge| < 0.10 then 0.75 else 1

/-- Liquidity scale factor as claim C8 words it: ×0.5 if liquidity <
20000, ×0.75 if liquidity < 50000, else unscaled. -/
def specLiqFactor (liquidity : ℚ) : ℚ :=
  if liquidity < 20000 then 0.5 else if liquidity < 50000 then 0.75 else 1

/-- Position size as claim C8 words it: the two factors applied
multiplicatively and independently to maxPositionSize, rounded to the
nearest $25 and clamped to [$25, maxPositionSize]. -/
def specSuggestedSize (edge liquidity maxPositionSize : ℚ) : ℚ :=
  max 25 (min maxPositionSize
    (roundTo25 (maxPositionSize * specEdgeFactor edge * specLiqFactor liquidity)))

/-- Modelled from the spec: misalignment severities of the
market-equivalence verifier (`semantic-verification.ts` is not present in
the sources; §4.5 fixes its output contract). -/
inductive Severity
  | LOW
  | MEDIUM
  | HIGH
  | CRITICAL
deriving DecidableEq, Repr

/-- Modelled from the spec: the closed set of misalignment types. -/
inductive MisalignmentType
  | RESOLUTION_DATE
  | RESOLUTION_SOURCE
  | SCOPE
  | THRESHOLD
  | DEFINITION
  | EDGE_CASE
deriving DecidableEq, Repr

/-- Modelled from the spec: one detected misalignment. -/
structure Misalignment where
  type : MisalignmentType
  severity : Severity
  description : Text
deriving DecidableEq, Repr

/-- Modelled from the spec: the verifier's recommendation labels. -/
inductive Recommendation
  | SAFE_TO_TRADE
  | PROCEED_WITH_CAUTION
  | AVOID
  | MANUAL_REVIEW
deriving DecidableEq, Repr

/-- Numeric rank of a severity (LOW 0 … CRITICAL 3). -/
def sevRank : Severity → ℕ
  | Severity.LOW => 0
  | Severity.MEDIUM => 1
  | Severity.HIGH => 2
  | Severity.CRITICAL => 3

/-- Rank of the maximum misalignment severity present (0 when none). -/
def maxSevRank (mis : List Misalignment) : ℕ :=
  (mis.map (fun m => sevRank m.severity)).foldr max 0

/-- Modelled from the spec: the deterministic table of §4.5 mapping
matchConfidence and the maximum misalignment severity to a
recommendation (any CRITICAL → AVOID; confidence < 0.5 → MANUAL_REVIEW;
max HIGH → PROCEED_WITH_CAUTION; none/only-LOW and confidence ≥ 0.8 →
SAFE_TO_TRADE; otherwise PROCEED_WITH_CAUTION). -/
def recommendationOfMax (matchConfidence : ℚ) (maxSev : ℕ) : Recommendation :=
  if maxSev = 3 then Recommendation.AVOID
  else if matchConfidence < 0.5 then Recommendation.MANUAL_REVIEW
  else if maxSev = 2 then Recommendation.PROCEED_WITH_CAUTION
  else if maxSev = 0 ∧ 0.8 ≤ matchConfidence then Recommendation.SAFE_TO_TRADE
  else Recommendation.PROCEED_WITH_CAUTION

/-- Modelled from the spec: the `VerificationResult` record of §3. -/
structure VerificationResult where
  isMatch : Bool
  matchConfidence : ℚ
  riskLevel : Severity
  recommendation : Recommendation
  misalignments : List Misalignment
deriving DecidableEq, Repr

/-- Modelled from the spec: `verify(marketA, marketB)` delegates
misalignment detection to an LLM collaborator (abstracted here as the
already-detected `isMatch`, `matchConfidence`, `riskLevel` and
`misalignments`), then derives `recommendation` by the deterministic
table of §4.5. -/
def mkVerificationResult (isMatch : Bool) (matchConfidence : ℚ)
    (riskLevel : Severity) (mis : List Misalignment) : VerificationResult :=
  { isMatch := isMatch
    matchConfidence := matchConfidence
    riskLevel := riskLevel
    recommendation := recommendationOfMax matchConfidence (maxSevRank mis)
    misalignments := mis }

/-- Distinct pairwise-dissimilar headlines used to exercise the dedup
capacity bound: the i-th headline is the string of i letters `a`. -/
def unaryHeadline (i : ℕ) : Text :=
  List.replicate i 'a'

/-- Headlines number 1 … 999 of the capacity run. -/
def dedupRunMid : List Text :=
  (List.range 999).map (fun i => unaryHeadline (i + 1))

/-- The full 1001-headline capacity run: lengths 0, 1, …, 1000. -/
def dedupRunAll : List Text :=
  (unaryHeadline 0 :: dedupRunMid) ++ [unaryHeadline 1000]

/-- A concrete headline used to exercise the deduplicator. -/
def wHeadlineA : Text :=
  ("Fed cuts rates in January!").data

/-- A near-duplicate paraphrase of `wHeadlineA` (Jaccard 5/6 > 0.8). -/
def wHeadlineB : Text :=
  ("Fed cuts rates in January 2026").data

section Helpers

/-- Rounding to 2 decimal places keeps a value inside [0.01, 0.99]. -/
theorem round2_price_bounds (x : ℚ) (h1 : 0.01 ≤ x) (h2 : x ≤ 0.99) :
    0.01 ≤ round2 x ∧ round2 x ≤ 0.99 := by
  have hk1 : (1 : ℤ) ≤ ⌊x * 100 + 0.5⌋ := by
    rw [Int.le_floor]
    push_cast
    linarith
  have hk2 : ⌊x * 100 + 0.5⌋ < 100 := by
    rw [Int.floor_lt]
    push_cast
    linarith
  have hc1 : (1 : ℚ) ≤ ((⌊x * 100 + 0.5⌋ : ℤ) : ℚ) := by exact_mod_cast hk1
  have hc2 : ((⌊x * 100 + 0.5⌋ : ℤ) : ℚ) ≤ 99 := by
    have h99 : ⌊x * 100 + 0.5⌋ ≤ 99 := by omega
    exact_mod_cast h99
  unfold round2
  constructor <;> linarith

/-- The clamp `max 0.01 (min 0.99 v)` lands in [0.01, 0.99]. -/
theorem clampPrice_mem (v : ℚ) : 0.01 ≤ clampPrice v ∧ clampPrice v ≤ 0.99 := by
  unfold clampPrice
  refine ⟨le_max_left _ _, max_le (by norm_num) (min_le_left _ _)⟩

/-- The tool's and the monitor's inlined base-shift computations coincide. -/
theorem monitorBaseShift_eq (m : ℚ) (d : NewsDir) :
    monitorBaseShift m d = calculateBaseShift m d := rfl

/-- For positive direction the base shift is the raw band schedule. -/
theorem calculateBaseShift_positive (x : ℚ) :
    calculateBaseShift x NewsDir.positive =
      (if x > 0.8 then 0.15 + (x - 0.8) * 0.5
       else if x > 0.5 then 0.05 + (x - 0.5) * 0.33
       else x * 0.1) := by
  simp [calculateBaseShift]

end Helpers

section C1

/-- C1: for every call to `estimateFairValue` with `currentPrice ∈ [0,1]`,
`magnitude ∈ [0,1]`, any direction, `confidence ∈ [0,1]` and any liquidity,
the returned `fairValue` lies in [0.01, 0.99]; likewise every `fairValue`
produced by the monitor-path `calculateFairValue` lies in [0.01, 0.99]. -/
theorem fairValue_clamp_invariant (cp m conf liq : ℚ) (d : NewsDir)
    (mkt : AffectedMarket) (na : NewsAnalysis)
    (hcp0 : 0 ≤ cp) (hcp1 : cp ≤ 1) (hm0 : 0 ≤ m) (hm1 : m ≤ 1)
    (hc0 : 0 ≤ conf) (hc1 : conf ≤ 1) :
    (0.01 ≤ (estimateFairValue cp m d conf liq).fairValue ∧
      (estimateFairValue cp m d conf liq).fairValue ≤ 0.99) ∧
    ∀ v, (calculateFairValue mkt na).fairValue = some v → 0.01 ≤ v ∧ v ≤ 0.99 := by
  constructor
  · have hraw := clampPrice_mem
      (cp + calculateBaseShift m d * conf)
    exact round2_price_bounds _ hraw.1 hraw.2
  · intro v hv
    have hv' : v = round2 (clampPrice ((mkt.currentPrice.getD 0.5) +
        monitorBaseShift (monitorMagnitude na.magnitude) na.direction *
          na.confidence * mkt.similarityScore)) := by
      simpa [calculateFairValue] using hv.symm
    subst hv'
    have hraw := clampPrice_mem ((mkt.currentPrice.getD 0.5) +
        monitorBaseShift (monitorMagnitude na.magnitude) na.direction *
          na.confidence * mkt.similarityScore)
    exact round2_price_bounds _ hraw.1 hraw.2

/-- Witness for C1 at the spec's own scenario (§8): currentPrice 0.65,
magnitude 0.9, positive, confidence 0.9, liquidity 100000. -/
theorem fairValue_clamp_invariant_witness :
    ((0 : ℚ) ≤ 0.65 ∧ (0.65 : ℚ) ≤ 1 ∧ (0 : ℚ) ≤ 0.9 ∧ (0.9 : ℚ) ≤ 1) ∧
    ((0.01 ≤ (estimateFairValue 0.65 0.9 NewsDir.positive 0.9 100000).fairValue ∧
      (estimateFairValue 0.65 0.9 NewsDir.positive 0.9 100000).fairValue ≤ 0.99) ∧
    ∀ v, (calculateFairValue
        { venue := Venue.KALSHI, id := [], question := [],
          similarityScore := 1, currentPrice := some 0.65 }
        { magnitude := MagLabel.HIGH, direction := NewsDir.positive,
          confidence := 0.9 }).fairValue = some v → 0.01 ≤ v ∧ v ≤ 0.99) :=
  ⟨by norm_num,
    fairValue_clamp_invariant 0.65 0.9 0.9 100000 NewsDir.positive
      { venue := Venue.KALSHI, id := [], question := [],
        similarityScore := 1, currentPrice := some 0.65 }
      { magnitude := MagLabel.HIGH, direction := NewsDir.positive,
        confidence := 0.9 }
      (by norm_num) (by norm_num) (by norm_num) (by norm_num)
      (by norm_num) (by norm_num)⟩

end C1

section C2

/-- C2 counterexample: the mid band of `calculateBaseShift` uses the
coefficient 0.33, not 0.333 as claimed: at magnitude 0.6 the unsigned shift
is 0.083, not 0.05 + 0.1 × 0.333 = 0.0833. -/
theorem baseShift_coefficient_counterexample :
    calculateBaseShift 0.6 NewsDir.positive ≠ 0.05 + (0.6 - 0.5) * 0.333 := by
  rw [calculateBaseShift_positive]
  norm_num

/-- C2 (amended): the unsigned shift is `magnitude × 0.1 ≤ 0.05` on the low
band, `0.05 + (magnitude − 0.5) × 0.33 ∈ [0.05, 0.149]` on the mid band and
inside (0.15, 0.25] on the high band; it is monotone in magnitude and
1-Lipschitz around 0.5 (hence continuous there), but jumps by 0.001 at the
0.8 boundary: the mid band tops out at 0.149 while the high band starts
above 0.15. -/
theorem baseShift_schedule (m m' : ℚ) (hm0 : 0 ≤ m) (hmm' : m ≤ m') (hm'1 : m' ≤ 1) :
    (m ≤ 0.5 → calculateBaseShift m NewsDir.positive = m * 0.1 ∧
      calculateBaseShift m NewsDir.positive ≤ 0.05) ∧
    (0.5 < m → m ≤ 0.8 →
      calculateBaseShift m NewsDir.positive = 0.05 + (m - 0.5) * 0.33 ∧
      0.05 ≤ calculateBaseShift m NewsDir.positive ∧
      calculateBaseShift m NewsDir.positive ≤ 0.149) ∧
    (0.8 < m → 0.15 < calculateBaseShift m NewsDir.positive ∧
      calculateBaseShift m NewsDir.positive ≤ 0.25) ∧
    calculateBaseShift m NewsDir.positive ≤ calculateBaseShift m' NewsDir.positive ∧
    |calculateBaseShift m NewsDir.positive - calculateBaseShift 0.5 NewsDir.positive| ≤
      |m - 0.5| ∧
    calculateBaseShift 0.8 NewsDir.positive = 0.149 := by
  refine ⟨?_, ?_, ?_, ?_, ?_, ?_⟩
  · intro h
    rw [calculateBaseShift_positive]
    rw [if_neg (by linarith), if_neg (by linarith)]
    exact ⟨rfl, by linarith⟩
  · intro h1 h2
    rw [calculateBaseShift_positive]
    rw [if_neg (by linarith), if_pos (by linarith)]
    exact ⟨rfl, by linarith, by linarith⟩
  · intro h
    rw [calculateBaseShift_positive]
    rw [if_pos (by linarith)]
    constructor <;> linarith
  · rw [calculateBaseShift_positive, calculateBaseShift_positive]
    split_ifs <;> linarith
  · have h05 : calculateBaseShift 0.5 NewsDir.positive = 0.05 := by
      rw [calculateBaseShift_positive]
      norm_num
    rw [h05, calculateBaseShift_positive]
    rcases le_or_lt m 0.5 with hm | hm
    · rw [if_neg (by linarith), if_neg (by linarith),
        abs_of_nonpos (by linarith), abs_of_nonpos (by linarith)]
      linarith
    · have hr : |m - 0.5| = m - 0.5 := abs_of_pos (by linarith)
      rw [hr]
      rcases le_or_lt m 0.8 with hm8 | hm8
      · rw [if_neg (by linarith), if_pos hm, abs_of_nonneg (by linarith)]
        linarith
      · rw [if_pos hm8, abs_of_nonneg (by linarith)]
        linarith
  · rw [calculateBaseShift_positive]
    norm_num

/-- Witness for C2's amended schedule at magnitude 0.3 against 0.9. -/
theorem baseShift_schedule_witness :
    ((0 : ℚ) ≤ 0.3 ∧ (0.3 : ℚ) ≤ 0.9 ∧ (0.9 : ℚ) ≤ 1) ∧
    (((0.3 : ℚ) ≤ 0.5 → calculateBaseShift 0.3 NewsDir.positive = 0.3 * 0.1 ∧
        calculateBaseShift 0.3 NewsDir.positive ≤ 0.05) ∧
      calculateBaseShift 0.3 NewsDir.positive ≤ calculateBaseShift 0.9 NewsDir.positive ∧
      calculateBaseShift 0.8 NewsDir.positive = 0.149) := by
  refine ⟨by norm_num, ?_⟩
  have h := baseShift_schedule 0.3 0.9 (by norm_num) (by norm_num) (by norm_num)
  exact ⟨h.1, h.2.2.2.1, h.2.2.2.2.2⟩

end C2

section C3

/-- C3: whenever liquidity < 10000, `estimateFairValue` returns signal
`hold` and direction `hold` regardless of every other input, and
`getSignal` itself short-circuits to (hold, hold) before any edge or
confidence rule is consulted. -/
theorem liquidity_floor_holds (cp m conf liq : ℚ) (d : NewsDir)
    (hliq : liq < 10000) :
    (estimateFairValue cp m d conf liq).signal = Signal.hold ∧
    (estimateFairValue cp m d conf liq).direction = TradeDir.hold ∧
    ∀ e c : ℚ, getSignal e c liq = (Signal.hold, TradeDir.hold) := by
  have hg : ∀ e c : ℚ, getSignal e c liq = (Signal.hold, TradeDir.hold) := by
    intro e c
    unfold getSignal
    rw [if_pos hliq]
  refine ⟨?_, ?_, hg⟩
  · show (getSignal _ conf liq).1 = Signal.hold
    rw [hg]
  · show (getSignal _ conf liq).2 = TradeDir.hold
    rw [hg]

/-- Witness for C3 at liquidity 5000 (edge would otherwise be large). -/
theorem liquidity_floor_holds_witness :
    (5000 : ℚ) < 10000 ∧
    ((estimateFairValue 0.65 0.9 NewsDir.positive 0.9 5000).signal = Signal.hold ∧
      (estimateFairValue 0.65 0.9 NewsDir.positive 0.9 5000).direction = TradeDir.hold ∧
      ∀ e c : ℚ, getSignal e c 5000 = (Signal.hold, TradeDir.hold)) :=
  ⟨by norm_num,
    liquidity_floor_holds 0.65 0.9 0.9 5000 NewsDir.positive (by norm_num)⟩

end C3

section C8

/-- C8: `generateTradeRecommendation` computes its action by the ±0.03
rule and its suggested size by the independent multiplicative edge and
liquidity factors, $25 rounding and [$25, maxPositionSize] clamp. -/
theorem tradeRecommendation_action_size (cp fv edge liq mps : ℚ) :
    (generateTradeRecommendation cp fv edge liq mps).action = specAction edge ∧
    (generateTradeRecommendation cp fv edge liq mps).suggestedSize =
      specSuggestedSize edge liq mps := by
  constructor
  · rfl
  · show max 25 (min mps (roundTo25 _)) = max 25 (min mps (roundTo25 _))
    unfold specEdgeFactor specLiqFactor
    split_ifs <;> ring_nf

end C8

section C10

/-- C10: when a market's similarityScore is 1, the monitor-path
`calculateFairValue` and the tool `estimateFairValue` (invoked with the
numeric magnitude 0.85/0.5/0.25 for the label HIGH/MEDIUM/LOW and the same
currentPrice, direction and confidence) return equal rounded fairValue and
edge fields. -/
theorem monitor_tool_fairValue_agree (cp conf liq : ℚ) (d : NewsDir)
    (lab : MagLabel) (mkt : AffectedMarket)
    (hsim : mkt.similarityScore = 1) (hcp : mkt.currentPrice = some cp) :
    (calculateFairValue mkt ⟨lab, d, conf⟩).fairValue =
      some (estimateFairValue cp (monitorMagnitude lab) d conf liq).fairValue ∧
    (calculateFairValue mkt ⟨lab, d, conf⟩).edge =
      some (estimateFairValue cp (monitorMagnitude lab) d conf liq).edge := by
  have hfv : clampPrice (mkt.currentPrice.getD 0.5 +
      monitorBaseShift (monitorMagnitude lab) d * conf * mkt.similarityScore) =
      fairValueRaw cp (monitorMagnitude lab) d conf := by
    rw [hsim, hcp, monitorBaseShift_eq, mul_one]
    rfl
  constructor
  · show some (round2 (clampPrice _)) = some (round2 (fairValueRaw _ _ _ _))
    rw [hfv]
  · show some (round2 (clampPrice _ - mkt.currentPrice.getD 0.5)) =
      some (round2 (fairValueRaw _ _ _ _ - cp))
    rw [hfv, hcp]
    rfl

/-- Witness for C10 with similarityScore 1, price 0.65, label HIGH. -/
theorem monitor_tool_fairValue_agree_witness :
    (AffectedMarket.similarityScore
        { venue := Venue.KALSHI, id := [], question := [],
          similarityScore := 1, currentPrice := some 0.65 } = 1 ∧
      AffectedMarket.currentPrice
        { venue := Venue.KALSHI, id := [], question := [],
          similarityScore := 1, currentPrice := some 0.65 } = some 0.65) ∧
    ((calculateFairValue
        { venue := Venue.KALSHI, id := [], question := [],
          similarityScore := 1, currentPrice := some 0.65 }
        ⟨MagLabel.HIGH, NewsDir.positive, 0.9⟩).fairValue =
      some (estimateFairValue 0.65 (monitorMagnitude MagLabel.HIGH)
        NewsDir.positive 0.9 100000).fairValue ∧
    (calculateFairValue
        { venue := Venue.KALSHI, id := [], question := [],
          similarityScore := 1, currentPrice := some 0.65 }
        ⟨MagLabel.HIGH, NewsDir.positive, 0.9⟩).edge =
      some (estimateFairValue 0.65 (monitorMagnitude MagLabel.HIGH)
        NewsDir.positive 0.9 100000).edge) :=
  ⟨⟨rfl, rfl⟩,
    monitor_tool_fairValue_agree 0.65 0.9 100000 NewsDir.positive MagLabel.HIGH
      { venue := Venue.KALSHI, id := [], question := [],
        similarityScore := 1, currentPrice := some 0.65 } rfl rfl⟩

end C10

section C6

/-- Splitting on spaces never produces the empty list. -/
theorem splitOnSpace_ne_nil (t : Text) : splitOnSpace t ≠ [] := by
  cases t with
  | nil => simp [splitOnSpace]
  | cons c rest =>
    unfold splitOnSpace
    split_ifs
    · simp
    · cases h : splitOnSpace rest <;> simp

/-- Every string has at least one token. -/
theorem tokens_ne_nil (t : Text) : tokens t ≠ [] := by
  unfold tokens
  rcases List.exists_mem_of_ne_nil _ (splitOnSpace_ne_nil t) with ⟨x, hx⟩
  exact List.ne_nil_of_mem (List.mem_dedup.mpr hx)

/-- The union token list is nonempty, so `similarity` never divides by 0. -/
theorem unionTokens_length_pos (a b : Text) : 0 < (unionTokens a b).length := by
  unfold unionTokens
  rw [List.length_append]
  have := List.length_pos.mpr (tokens_ne_nil a)
  omega

/-- C6 counterexample: on two empty strings each side tokenizes to the
singleton set containing the empty token, so the Jaccard score is 1, not 0
as the claim asserts. -/
theorem similarity_empty_counterexample :
    similarity [] [] = 1 ∧ (1 : ℚ) ≠ 0 := by
  constructor
  · have h1 : (interTokens [] []).length = 1 := by decide
    have h2 : (unionTokens [] []).length = 1 := by decide
    rw [similarity, h1, h2]
    norm_num
  · norm_num

/-- C6 (amended): `similarity` always returns a value in [0, 1] and never
divides by zero (the union of token sets is nonempty because `split(' ')`
always yields at least one token); on two empty strings both sides
tokenize to the singleton {""} and the result is 1, not 0. -/
theorem similarity_bounded (a b : Text) :
    0 ≤ similarity a b ∧ similarity a b ≤ 1 ∧ (unionTokens a b).length ≠ 0 := by
  have hpos := unionTokens_length_pos a b
  have hle : (interTokens a b).length ≤ (unionTokens a b).length := by
    unfold interTokens unionTokens
    rw [List.length_append]
    have := List.length_filter_le (fun x => x ∈ tokens b) (tokens a)
    omega
  refine ⟨?_, ?_, by omega⟩
  · exact div_nonneg (by positivity) (by positivity)
  · rw [similarity]
    rw [div_le_one (by exact_mod_cast hpos)]
    exact_mod_cast hle

end C6

section C7

/-- Any member of a list of naturals is bounded by the running maximum. -/
theorem le_foldr_max (l : List ℕ) (x : ℕ) (hx : x ∈ l) : x ≤ l.foldr max 0 := by
  induction l with
  | nil => cases hx
  | cons a t ih =>
    rcases List.mem_cons.mp hx with h | h
    · subst h
      exact le_max_left _ _
    · exact le_trans (ih h) (le_max_right _ _)

/-- The running maximum of a list of naturals is below any common bound. -/
theorem foldr_max_le (l : List ℕ) (b : ℕ) (h : ∀ x ∈ l, x ≤ b) :
    l.foldr max 0 ≤ b := by
  induction l with
  | nil => exact Nat.zero_le b
  | cons a t ih =>
    exact max_le (h a (List.mem_cons_self a t))
      (ih fun x hx => h x (List.mem_cons_of_mem a hx))

/-- C7 (spec-modelled): a verification result with any CRITICAL
misalignment is recommended AVOID regardless of matchConfidence, and the
recommendation is a deterministic function of matchConfidence and the
maximum misalignment severity (hence of the (isMatch, matchConfidence,
max severity) triple — isMatch and riskLevel do not influence it). -/
theorem critical_forces_avoid (b b' : Bool) (mc : ℚ) (rl rl' : Severity)
    (mis mis' : List Misalignment) :
    ((∃ mm ∈ mis, mm.severity = Severity.CRITICAL) →
      (mkVerificationResult b mc rl mis).recommendation = Recommendation.AVOID) ∧
    (maxSevRank mis = maxSevRank mis' →
      (mkVerificationResult b mc rl mis).recommendation =
        (mkVerificationResult b' mc rl' mis').recommendation) := by
  constructor
  · rintro ⟨mm, hmm, hcrit⟩
    have h3 : maxSevRank mis = 3 := by
      have hmem : sevRank mm.severity ∈ mis.map (fun m => sevRank m.severity) :=
        List.mem_map_of_mem _ hmm
      have hlo := le_foldr_max _ _ hmem
      have hhi : maxSevRank mis ≤ 3 := by
        refine foldr_max_le _ 3 ?_
        intro x hx
        rcases List.mem_map.mp hx with ⟨m2, _, rfl⟩
        cases m2.severity <;> simp [sevRank]
      rw [hcrit] at hlo
      have hlo' : 3 ≤ maxSevRank mis := hlo
      omega
    show recommendationOfMax mc (maxSevRank mis) = Recommendation.AVOID
    rw [h3]
    unfold recommendationOfMax
    simp
  · intro h
    show recommendationOfMax mc (maxSevRank mis) = recommendationOfMax mc (maxSevRank mis')
    rw [h]

/-- Witness for C7: matchConfidence 0.95 with a single CRITICAL
misalignment is still AVOID. -/
theorem critical_forces_avoid_witness :
    (∃ mm ∈ [Misalignment.mk MisalignmentType.RESOLUTION_DATE Severity.CRITICAL []],
      mm.severity = Severity.CRITICAL) ∧
    (mkVerificationResult true 0.95 Severity.CRITICAL
      [Misalignment.mk MisalignmentType.RESOLUTION_DATE Severity.CRITICAL []]).recommendation =
      Recommendation.AVOID := by
  have hex : ∃ mm ∈ [Misalignment.mk MisalignmentType.RESOLUTION_DATE Severity.CRITICAL []],
      mm.severity = Severity.CRITICAL :=
    ⟨_, List.mem_singleton.mpr rfl, rfl⟩
  exact ⟨hex,
    (critical_forces_avoid true true 0.95 Severity.CRITICAL Severity.CRITICAL _ []).1 hex⟩

end C7

section C9

/-- Field-level reading of the tool's returned direction. -/
theorem estimateFairValue_direction (cp m conf liq : ℚ) (d : NewsDir) :
    (estimateFairValue cp m d conf liq).direction =
      (getSignal (fairValueRaw cp m d conf - cp) conf liq).2 := rfl

/-- Field-level reading of the tool's returned entry price. -/
theorem estimateFairValue_entryPrice (cp m conf liq : ℚ) (d : NewsDir) :
    (estimateFairValue cp m d conf liq).entryPrice =
      round2 (if (getSignal (fairValueRaw cp m d conf - cp) conf liq).2 = TradeDir.long
        then min (cp + 0.02) (fairValueRaw cp m d conf - 0.03)
        else max (cp - 0.02) (fairValueRaw cp m d conf + 0.03)) := rfl

/-- Field-level reading of the tool's returned stop loss. -/
theorem estimateFairValue_stopLoss (cp m conf liq : ℚ) (d : NewsDir) :
    (estimateFairValue cp m d conf liq).stopLoss =
      round2 (if (getSignal (fairValueRaw cp m d conf - cp) conf liq).2 = TradeDir.long
        then cp - 0.10 else cp + 0.10) := rfl

/-- The monitor's `calculateFairValue`, written with the named raw
quantities (pure unfolding of the definition). -/
theorem calculateFairValue_eq (mkt : AffectedMarket) (na : NewsAnalysis) :
    calculateFairValue mkt na =
      { mkt with
        currentPrice := some (round2 (monitorCurrentPrice mkt))
        fairValue := some (round2 (monitorFairValueRaw mkt na))
        edge := some (round2 (monitorEdge mkt na))
        edgePercent := some (round1 (if monitorCurrentPrice mkt > 0 then
          monitorEdge mkt na / monitorCurrentPrice mkt * 100 else 0))
        signal := if monitorSignal (monitorEdge mkt na) na.confidence = Signal.hold
          then none else some (monitorSignal (monitorEdge mkt na) na.confidence)
        side := if monitorSignal (monitorEdge mkt na) na.confidence = Signal.hold
          then none else some (if monitorEdge mkt na > 0 then Side.YES else Side.NO)
        entryPrice := if monitorSignal (monitorEdge mkt na) na.confidence = Signal.hold
          then none else some (round2 (if monitorEdge mkt na > 0 then
            min (monitorCurrentPrice mkt + 0.02) (monitorFairValueRaw mkt na - 0.03)
            else max (monitorCurrentPrice mkt - 0.02) (monitorFairValueRaw mkt na + 0.03)))
        targetPrice := if monitorSignal (monitorEdge mkt na) na.confidence = Signal.hold
          then none else some (round2 (monitorFairValueRaw mkt na))
        stopLoss := if monitorSignal (monitorEdge mkt na) na.confidence = Signal.hold
          then none else some (round2 (if monitorEdge mkt na > 0 then
            monitorCurrentPrice mkt - 0.12 else monitorCurrentPrice mkt + 0.12))
        suggestedSize := if monitorSignal (monitorEdge mkt na) na.confidence = Signal.hold
          then none else some (roundTo25 (if |monitorEdge mkt na| < 0.05 then 250 * 0.5
            else if |monitorEdge mkt na| < 0.10 then 250 * 0.75 else 250))
        confidence := if monitorSignal (monitorEdge mkt na) na.confidence = Signal.hold
          then none else some (if |monitorEdge mkt na| > 0.15 then ConfLabel.HIGH
            else if |monitorEdge mkt na| > 0.08 then ConfLabel.MEDIUM
            else ConfLabel.LOW) } := rfl

/-- C9 counterexample: on the monitor path the stop loss uses ±0.12, not
±0.10 — at currentPrice 0.5 with a HIGH/positive/0.8-confidence analysis
and similarityScore 1 the returned stopLoss is 0.38 ≠ 0.5 − 0.10. -/
theorem stopLoss_offset_counterexample :
    (calculateFairValue
        { venue := Venue.KALSHI, id := [], question := [],
          similarityScore := 1, currentPrice := some 0.5 }
        ⟨MagLabel.HIGH, NewsDir.positive, 0.8⟩).stopLoss = some 0.38 ∧
    (0.38 : ℚ) ≠ 0.5 - 0.10 := by
  constructor
  · have hfv : monitorFairValueRaw
        { venue := Venue.KALSHI, id := [], question := [],
          similarityScore := 1, currentPrice := some 0.5 }
        ⟨MagLabel.HIGH, NewsDir.positive, 0.8⟩ = 0.64 := by
      simp only [monitorFairValueRaw, monitorCurrentPrice, monitorBaseShift_eq,
        calculateBaseShift_positive, clampPrice, monitorMagnitude, Option.getD_some]
      norm_num [min_def, max_def]
    have hedge : monitorEdge
        { venue := Venue.KALSHI, id := [], question := [],
          similarityScore := 1, currentPrice := some 0.5 }
        ⟨MagLabel.HIGH, NewsDir.positive, 0.8⟩ = 0.14 := by
      rw [monitorEdge, hfv]
      norm_num [monitorCurrentPrice]
    have hsig : monitorSignal (0.14 : ℚ) 0.8 = Signal.buy := by
      unfold monitorSignal
      rw [abs_of_pos (by norm_num : (0 : ℚ) < 0.14)]
      norm_num
    rw [calculateFairValue_eq]
    show (if monitorSignal (monitorEdge _ _) _ = Signal.hold then none
      else some (round2 (if monitorEdge _ _ > 0 then
        monitorCurrentPrice _ - 0.12 else monitorCurrentPrice _ + 0.12))) = some 0.38
    rw [hedge, hsig]
    rw [if_neg (by decide), if_pos (by norm_num : (0.14 : ℚ) > 0)]
    have hr : round2 ((0.5 : ℚ) - 0.12) = 0.38 := by
      unfold round2
      norm_num [Int.floor_eq_iff]
    rw [show monitorCurrentPrice
        { venue := Venue.KALSHI, id := [], question := [],
          similarityScore := 1, currentPrice := some 0.5 } = (0.5 : ℚ) from rfl, hr]
  · norm_num

/-- C9 (amended): on the tool path a long direction yields
entry = min(currentPrice + 0.02, fairValue − 0.03), target = fairValue and
stop = currentPrice − 0.10, and a short direction mirrors them with
stop = currentPrice + 0.10 (all as rounded outputs); the monitor path uses
the same entry and target formulas keyed on edge > 0, but its stop offset
is 0.12 instead of 0.10, and it omits the trade fields entirely when its
signal is HOLD. -/
theorem entry_target_stop_levels (cp m conf liq : ℚ) (d : NewsDir)
    (mkt : AffectedMarket) (na : NewsAnalysis) :
    ((estimateFairValue cp m d conf liq).direction = TradeDir.long →
      (estimateFairValue cp m d conf liq).entryPrice =
        round2 (min (cp + 0.02) (fairValueRaw cp m d conf - 0.03)) ∧
      (estimateFairValue cp m d conf liq).targetPrice =
        (estimateFairValue cp m d conf liq).fairValue ∧
      (estimateFairValue cp m d conf liq).stopLoss = round2 (cp - 0.10)) ∧
    ((estimateFairValue cp m d conf liq).direction = TradeDir.short →
      (estimateFairValue cp m d conf liq).entryPrice =
        round2 (max (cp - 0.02) (fairValueRaw cp m d conf + 0.03)) ∧
      (estimateFairValue cp m d conf liq).stopLoss = round2 (cp + 0.10)) ∧
    (monitorSignal (monitorEdge mkt na) na.confidence ≠ Signal.hold →
      (calculateFairValue mkt na).targetPrice = (calculateFairValue mkt na).fairValue ∧
      (0 < monitorEdge mkt na →
        (calculateFairValue mkt na).entryPrice =
          some (round2 (min (monitorCurrentPrice mkt + 0.02)
            (monitorFairValueRaw mkt na - 0.03))) ∧
        (calculateFairValue mkt na).stopLoss =
          some (round2 (monitorCurrentPrice mkt - 0.12))) ∧
      (¬ 0 < monitorEdge mkt na →
        (calculateFairValue mkt na).entryPrice =
          some (round2 (max (monitorCurrentPrice mkt - 0.02)
            (monitorFairValueRaw mkt na + 0.03))) ∧
        (calculateFairValue mkt na).stopLoss =
          some (round2 (monitorCurrentPrice mkt + 0.12)))) := by
  refine ⟨?_, ?_, ?_⟩
  · intro hdir
    rw [estimateFairValue_direction] at hdir
    refine ⟨?_, rfl, ?_⟩
    · rw [estimateFairValue_entryPrice, if_pos hdir]
    · rw [estimateFairValue_stopLoss, if_pos hdir]
  · intro hdir
    rw [estimateFairValue_direction] at hdir
    have hne : ¬ (getSignal (fairValueRaw cp m d conf - cp) conf liq).2 = TradeDir.long := by
      rw [hdir]
      decide
    refine ⟨?_, ?_⟩
    · rw [estimateFairValue_entryPrice, if_neg hne]
    · rw [estimateFairValue_stopLoss, if_neg hne]
  · intro hsig
    rw [calculateFairValue_eq]
    refine ⟨?_, ?_, ?_⟩
    · show (if monitorSignal (monitorEdge mkt na) na.confidence = Signal.hold then none
        else some (round2 (monitorFairValueRaw mkt na))) =
        some (round2 (monitorFairValueRaw mkt na))
      rw [if_neg hsig]
    · intro hpos
      constructor
      · show (if monitorSignal (monitorEdge mkt na) na.confidence = Signal.hold then none
          else some (round2 (if monitorEdge mkt na > 0 then
            min (monitorCurrentPrice mkt + 0.02) (monitorFairValueRaw mkt na - 0.03)
            else max (monitorCurrentPrice mkt - 0.02)
              (monitorFairValueRaw mkt na + 0.03)))) = _
        rw [if_neg hsig, if_pos hpos]
      · show (if monitorSignal (monitorEdge mkt na) na.confidence = Signal.hold then none
          else some (round2 (if monitorEdge mkt na > 0 then
            monitorCurrentPrice mkt - 0.12 else monitorCurrentPrice mkt + 0.12))) = _
        rw [if_neg hsig, if_pos hpos]
    · intro hneg
      constructor
      · show (if monitorSignal (monitorEdge mkt na) na.confidence = Signal.hold then none
          else some (round2 (if monitorEdge mkt na > 0 then
            min (monitorCurrentPrice mkt + 0.02) (monitorFairValueRaw mkt na - 0.03)
            else max (monitorCurrentPrice mkt - 0.02)
              (monitorFairValueRaw mkt na + 0.03)))) = _
        rw [if_neg hsig, if_neg hneg]
      · show (if monitorSignal (monitorEdge mkt na) na.confidence = Signal.hold then none
          else some (round2 (if monitorEdge mkt na > 0 then
            monitorCurrentPrice mkt - 0.12 else monitorCurrentPrice mkt + 0.12))) = _
        rw [if_neg hsig, if_neg hneg]

/-- Witness for C9's amended levels: the spec's §8 scenario gives a long
direction and the stated entry/target/stop. -/
theorem entry_target_stop_levels_witness :
    (estimateFairValue 0.65 0.9 NewsDir.positive 0.9 100000).direction = TradeDir.long ∧
    ((estimateFairValue 0.65 0.9 NewsDir.positive 0.9 100000).entryPrice =
        round2 (min (0.65 + 0.02) (fairValueRaw 0.65 0.9 NewsDir.positive 0.9 - 0.03)) ∧
      (estimateFairValue 0.65 0.9 NewsDir.positive 0.9 100000).targetPrice =
        (estimateFairValue 0.65 0.9 NewsDir.positive 0.9 100000).fairValue ∧
      (estimateFairValue 0.65 0.9 NewsDir.positive 0.9 100000).stopLoss =
        round2 ((0.65 : ℚ) - 0.10)) := by
  have hfv : fairValueRaw 0.65 0.9 NewsDir.positive 0.9 = 0.83 := by
    unfold fairValueRaw
    rw [calculateBaseShift_positive]
    norm_num [clampPrice, min_def, max_def]
  have hg : getSignal (fairValueRaw 0.65 0.9 NewsDir.positive 0.9 - 0.65) 0.9 100000 =
      (Signal.strong_buy, TradeDir.long) := by
    rw [hfv]
    unfold getSignal
    rw [abs_of_pos (by norm_num : (0 : ℚ) < 0.83 - 0.65)]
    norm_num
  have hdir : (estimateFairValue 0.65 0.9 NewsDir.positive 0.9 100000).direction =
      TradeDir.long := by
    rw [estimateFairValue_direction, hg]
  exact ⟨hdir,
    (entry_target_stop_levels 0.65 0.9 0.9 100000 NewsDir.positive
      { venue := Venue.KALSHI, id := [], question := [],
        similarityScore := 1, currentPrice := some 0.65 }
      ⟨MagLabel.HIGH, NewsDir.positive, 0.9⟩).1 hdir⟩

end C9

section C4

/-- A successful `isNewHeadline` call leaves the normalized headline in
the updated recency set (the capacity eviction removes the oldest entry,
never the one just inserted). -/
theorem isNewHeadline_mem_of_true (st st' : DedupState) (h : Text)
    (hrun : isNewHeadline st h = (true, st')) :
    normalizeHeadline h ∈ st'.seen := by
  unfold isNewHeadline at hrun
  split_ifs at hrun with h1 h2 hlen
  · exact absurd (congrArg Prod.fst hrun) (by simp)
  · exact absurd (congrArg Prod.fst hrun) (by simp)
  · have hseen := congrArg Prod.snd hrun
    simp only at hseen
    subst hseen
    show normalizeHeadline h ∈ (st.seen ++ [normalizeHeadline h]).tail
    cases hs : st.seen with
    | nil =>
      rw [hs] at hlen
      simp at hlen
    | cons a t =>
      rw [List.cons_append, List.tail_cons]
      exact List.mem_append_right _ (List.mem_singleton.mpr rfl)
  · have hseen := congrArg Prod.snd hrun
    simp only at hseen
    subst hseen
    show normalizeHeadline h ∈ st.seen ++ [normalizeHeadline h]
    exact List.mem_append_right _ (List.mem_singleton.mpr rfl)

/-- C4: immediately after `isNewHeadline` accepted a headline, a repeat of
the same headline is rejected; and a headline whose normalized
token-Jaccard similarity to some retained entry exceeds 0.8 is rejected
without changing the recency set. -/
theorem dedup_repeat_and_paraphrase (st st' : DedupState) (h p : Text) :
    (isNewHeadline st h = (true, st') → (isNewHeadline st' h).1 = false) ∧
    ((∃ s ∈ st.seen, (0.8 : ℚ) < similarity (normalizeHeadline p) s) →
      isNewHeadline st p = (false, st)) := by
  constructor
  · intro hrun
    have hmem := isNewHeadline_mem_of_true st st' h hrun
    unfold isNewHeadline
    rw [if_pos hmem]
  · intro hex
    unfold isNewHeadline
    by_cases hmem : normalizeHeadline p ∈ st.seen
    · rw [if_pos hmem]
    · rw [if_neg hmem, if_pos hex]

/-- Witness for C4 with a real headline and a 5/6-similar paraphrase. -/
theorem dedup_repeat_and_paraphrase_witness :
    (isNewHeadline ⟨[]⟩ wHeadlineA = (true, ⟨[normalizeHeadline wHeadlineA]⟩) ∧
      (∃ s ∈ (DedupState.mk [normalizeHeadline wHeadlineA]).seen,
        (0.8 : ℚ) < similarity (normalizeHeadline wHeadlineB) s)) ∧
    ((isNewHeadline ⟨[normalizeHeadline wHeadlineA]⟩ wHeadlineA).1 = false ∧
      isNewHeadline ⟨[normalizeHeadline wHeadlineA]⟩ wHeadlineB =
        (false, ⟨[normalizeHeadline wHeadlineA]⟩)) := by
  have hrun : isNewHeadline ⟨[]⟩ wHeadlineA =
      (true, ⟨[normalizeHeadline wHeadlineA]⟩) := by decide
  have hsim : (0.8 : ℚ) <
      similarity (normalizeHeadline wHeadlineB) (normalizeHeadline wHeadlineA) := by
    have h5 : (interTokens (normalizeHeadline wHeadlineB)
        (normalizeHeadline wHeadlineA)).length = 5 := by decide
    have h6 : (unionTokens (normalizeHeadline wHeadlineB)
        (normalizeHeadline wHeadlineA)).length = 6 := by decide
    rw [similarity, h5, h6]
    norm_num
  have hex : ∃ s ∈ (DedupState.mk [normalizeHeadline wHeadlineA]).seen,
      (0.8 : ℚ) < similarity (normalizeHeadline wHeadlineB) s :=
    ⟨normalizeHeadline wHeadlineA, List.mem_singleton.mpr rfl, hsim⟩
  refine ⟨⟨hrun, hex⟩, ?_, ?_⟩
  · exact (dedup_repeat_and_paraphrase ⟨[]⟩ ⟨[normalizeHeadline wHeadlineA]⟩
      wHeadlineA wHeadlineB).1 hrun
  · exact (dedup_repeat_and_paraphrase ⟨[normalizeHeadline wHeadlineA]⟩ ⟨[]⟩
      wHeadlineA wHeadlineB).2 hex

end C4

section C5

/-- A headline that is neither present nor near-duplicate is accepted and
appended (with eviction of the oldest entry past capacity). -/
theorem isNewHeadline_fresh (st : DedupState) (h : Text)
    (h1 : normalizeHeadline h ∉ st.seen)
    (h2 : ∀ s ∈ st.seen, ¬ (0.8 : ℚ) < similarity (normalizeHeadline h) s) :
    isNewHeadline st h = (true,
      ⟨if 1000 < (st.seen ++ [normalizeHeadline h]).length then
          (st.seen ++ [normalizeHeadline h]).tail
        else st.seen ++ [normalizeHeadline h]⟩) := by
  unfold isNewHeadline
  rw [if_neg h1, if_neg (by rintro ⟨s, hs, hlt⟩; exact h2 s hs hlt)]

/-- Running the deduplicator over a concatenation is running it in two
stages. -/
theorem runDedup_append (st : DedupState) (l1 l2 : List Text) :
    runDedup st (l1 ++ l2) = runDedup (runDedup st l1) l2 := by
  unfold runDedup
  rw [List.foldl_append]

/-- Feeding pairwise-distinct, pairwise-dissimilar headlines into a state
that stays within capacity appends their normalized forms in order. -/
theorem runDedup_fresh (hs : List Text) (st : DedupState)
    (hnodup : (st.seen ++ hs.map normalizeHeadline).Nodup)
    (hsim : ∀ a ∈ st.seen ++ hs.map normalizeHeadline,
      ∀ b ∈ st.seen ++ hs.map normalizeHeadline, a ≠ b →
        ¬ (0.8 : ℚ) < similarity a b)
    (hlen : st.seen.length + hs.length ≤ 1000) :
    runDedup st hs = ⟨st.seen ++ hs.map normalizeHeadline⟩ := by
  induction hs generalizing st with
  | nil =>
    cases st with
    | mk seen => simp [runDedup]
  | cons h t ih =>
    have hdisj : st.seen.Disjoint ((h :: t).map normalizeHeadline) :=
      (List.nodup_append.mp hnodup).2.2
    have hn : normalizeHeadline h ∉ st.seen := by
      intro hmem
      exact hdisj hmem (by simp)
    have hfr : ∀ s ∈ st.seen, ¬ (0.8 : ℚ) < similarity (normalizeHeadline h) s := by
      intro s hs'
      refine hsim (normalizeHeadline h) ?_ s (List.mem_append_left _ hs') ?_
      · exact List.mem_append_right _ (by simp)
      · intro heq
        exact hdisj hs' (by simp [← heq])
    have hlen1 : ¬ 1000 < (st.seen ++ [normalizeHeadline h]).length := by
      simp only [List.length_append, List.length_singleton]
      simp only [List.length_cons] at hlen
      omega
    have hstep : (isNewHeadline st h).2 = ⟨st.seen ++ [normalizeHeadline h]⟩ := by
      rw [isNewHeadline_fresh st h hn hfr]
      show (⟨if 1000 < (st.seen ++ [normalizeHeadline h]).length then
          (st.seen ++ [normalizeHeadline h]).tail
        else st.seen ++ [normalizeHeadline h]⟩ : DedupState) = _
      rw [if_neg hlen1]
    have hL : (st.seen ++ [normalizeHeadline h]) ++ t.map normalizeHeadline =
        st.seen ++ (h :: t).map normalizeHeadline := by
      rw [List.map_cons, List.append_assoc, List.singleton_append]
    show runDedup ((isNewHeadline st h).2) t = _
    rw [hstep]
    rw [ih ⟨st.seen ++ [normalizeHeadline h]⟩ (by rw [hL]; exact hnodup)
      (by rw [hL]; exact hsim)
      (by simp only [List.length_append, List.length_singleton]
          simp only [List.length_cons] at hlen
          omega)]
    rw [hL]

/-- C5: the recency set never exceeds 1000 entries; starting from empty,
after 1001 pairwise-distinct pairwise-dissimilar headlines the set holds
exactly 1000 entries, the very first headline has been evicted (it was the
single oldest entry), and it is accepted as new again on a repeat. -/
theorem dedup_capacity (h0 : Text) (mid : List Text) (hlast : Text)
    (hmidlen : mid.length = 999)
    (hnodup : (((h0 :: mid) ++ [hlast]).map normalizeHeadline).Nodup)
    (hsim : ∀ a ∈ ((h0 :: mid) ++ [hlast]).map normalizeHeadline,
      ∀ b ∈ ((h0 :: mid) ++ [hlast]).map normalizeHeadline, a ≠ b →
        ¬ (0.8 : ℚ) < similarity a b) :
    (∀ (st : DedupState) (hh : Text), st.seen.length ≤ 1000 →
      ((isNewHeadline st hh).2).seen.length ≤ 1000) ∧
    (runDedup ⟨[]⟩ ((h0 :: mid) ++ [hlast])).seen =
      mid.map normalizeHeadline ++ [normalizeHeadline hlast] ∧
    (runDedup ⟨[]⟩ ((h0 :: mid) ++ [hlast])).seen.length = 1000 ∧
    normalizeHeadline h0 ∉ (runDedup ⟨[]⟩ ((h0 :: mid) ++ [hlast])).seen ∧
    (isNewHeadline (runDedup ⟨[]⟩ ((h0 :: mid) ++ [hlast])) h0).1 = true := by
  have hmapfull : ((h0 :: mid) ++ [hlast]).map normalizeHeadline =
      normalizeHeadline h0 ::
        (mid.map normalizeHeadline ++ [normalizeHeadline hlast]) := by
    simp [List.map_append]
  rw [hmapfull] at hnodup hsim
  have hcap : ∀ (st : DedupState) (hh : Text), st.seen.length ≤ 1000 →
      ((isNewHeadline st hh).2).seen.length ≤ 1000 := by
    intro st hh hle
    unfold isNewHeadline
    split_ifs with h1 h2 hlen
    · exact hle
    · exact hle
    · show (st.seen ++ [normalizeHeadline hh]).tail.length ≤ 1000
      rw [List.length_tail]
      simp only [List.length_append, List.length_singleton]
      omega
    · show (st.seen ++ [normalizeHeadline hh]).length ≤ 1000
      simp only [List.length_append, List.length_singleton] at hlen ⊢
      omega
  have hnodup0 : normalizeHeadline h0 ∉
      mid.map normalizeHeadline ++ [normalizeHeadline hlast] :=
    (List.nodup_cons.mp hnodup).1
  have hnodup1 : (mid.map normalizeHeadline ++ [normalizeHeadline hlast]).Nodup :=
    (List.nodup_cons.mp hnodup).2
  have hmidnodup : (mid.map normalizeHeadline).Nodup :=
    (List.nodup_append.mp hnodup1).1
  have hdisj : (mid.map normalizeHeadline).Disjoint [normalizeHeadline hlast] :=
    (List.nodup_append.mp hnodup1).2.2
  have hmem_of_pref : ∀ x ∈ (h0 :: mid).map normalizeHeadline,
      x ∈ normalizeHeadline h0 ::
        (mid.map normalizeHeadline ++ [normalizeHeadline hlast]) := by
    intro x hx
    rw [List.map_cons] at hx
    rcases List.mem_cons.mp hx with hx | hx
    · exact hx ▸ List.mem_cons_self _ _
    · exact List.mem_cons_of_mem _ (List.mem_append_left _ hx)
  have hprefnodup : ((h0 :: mid).map normalizeHeadline).Nodup := by
    rw [List.map_cons, List.nodup_cons]
    exact ⟨fun hc => hnodup0 (List.mem_append_left _ hc), hmidnodup⟩
  have hfirstRun : runDedup ⟨[]⟩ (h0 :: mid) =
      ⟨(h0 :: mid).map normalizeHeadline⟩ := by
    have := runDedup_fresh (h0 :: mid) ⟨[]⟩
      (by rw [List.nil_append]; exact hprefnodup)
      (by
        intro a ha b hb hab
        rw [List.nil_append] at ha hb
        exact hsim a (hmem_of_pref a ha) b (hmem_of_pref b hb) hab)
      (by
        show ([] : List Text).length + (h0 :: mid).length ≤ 1000
        simp [hmidlen])
    simpa using this
  have hnl : normalizeHeadline hlast ∉ (h0 :: mid).map normalizeHeadline := by
    intro hc
    rw [List.map_cons] at hc
    rcases List.mem_cons.mp hc with hx | hx
    · apply hnodup0
      rw [← hx]
      exact List.mem_append_right _ (List.mem_singleton.mpr rfl)
    · exact hdisj hx (List.mem_singleton.mpr rfl)
  have hsl : ∀ s ∈ (h0 :: mid).map normalizeHeadline,
      ¬ (0.8 : ℚ) < similarity (normalizeHeadline hlast) s := by
    intro s hs'
    refine hsim (normalizeHeadline hlast)
      (List.mem_cons_of_mem _
        (List.mem_append_right _ (List.mem_singleton.mpr rfl)))
      s (hmem_of_pref s hs') ?_
    intro heq
    exact hnl (by rw [heq]; exact hs')
  have hlen1001 : 1000 <
      ((h0 :: mid).map normalizeHeadline ++ [normalizeHeadline hlast]).length := by
    simp [hmidlen]
  have hfinal : (runDedup ⟨[]⟩ ((h0 :: mid) ++ [hlast])).seen =
      mid.map normalizeHeadline ++ [normalizeHeadline hlast] := by
    rw [runDedup_append, hfirstRun]
    show ((isNewHeadline ⟨(h0 :: mid).map normalizeHeadline⟩ hlast).2).seen = _
    rw [isNewHeadline_fresh ⟨(h0 :: mid).map normalizeHeadline⟩ hlast hnl hsl]
    show (if 1000 <
        ((h0 :: mid).map normalizeHeadline ++ [normalizeHeadline hlast]).length
      then ((h0 :: mid).map normalizeHeadline ++ [normalizeHeadline hlast]).tail
      else (h0 :: mid).map normalizeHeadline ++ [normalizeHeadline hlast]) = _
    rw [if_pos hlen1001, List.map_cons, List.cons_append, List.tail_cons]
  have hnotmem : normalizeHeadline h0 ∉
      (runDedup ⟨[]⟩ ((h0 :: mid) ++ [hlast])).seen := by
    rw [hfinal]
    exact hnodup0
  refine ⟨hcap, hfinal, ?_, hnotmem, ?_⟩
  · rw [hfinal]
    simp [hmidlen]
  · have hs0 : ∀ s ∈ (runDedup ⟨[]⟩ ((h0 :: mid) ++ [hlast])).seen,
        ¬ (0.8 : ℚ) < similarity (normalizeHeadline h0) s := by
      intro s hs'
      rw [hfinal] at hs'
      refine hsim (normalizeHeadline h0) (List.mem_cons_self _ _) s
        (List.mem_cons_of_mem _ hs') ?_
      intro heq
      exact hnotmem (by rw [hfinal, heq]; exact hs')
    rw [isNewHeadline_fresh _ _ hnotmem hs0]

/-- Strings of letters `a` are fixed points of normalization. -/
theorem normalizeHeadline_unary (i : ℕ) :
    normalizeHeadline (unaryHeadline i) = unaryHeadline i := by
  have hdw : ∀ j : ℕ,
      List.dropWhile isSpaceB (List.replicate j 'a') = List.replicate j 'a' := by
    intro j
    cases j with
    | zero => rfl
    | succ k =>
      rw [List.replicate_succ, List.dropWhile_cons]
      simp [isSpaceB]
  unfold normalizeHeadline unaryHeadline trimText
  rw [List.map_replicate]
  rw [show Char.toLower 'a' = 'a' from rfl]
  rw [hdw, List.reverse_replicate, hdw, List.reverse_replicate]
  rw [List.filter_eq_self.mpr]
  intro c hc
  rw [List.eq_of_mem_replicate hc]
  rfl

/-- A string with no space splits into a single piece. -/
theorem splitOnSpace_no_space (l : Text) (hl : ∀ c ∈ l, c ≠ ' ') :
    splitOnSpace l = [l] := by
  induction l with
  | nil => rfl
  | cons c rest ih =>
    unfold splitOnSpace
    rw [if_neg (hl c (List.mem_cons_self c rest))]
    rw [ih (fun c' hc' => hl c' (List.mem_cons_of_mem c hc'))]

/-- A string of letters `a` is a single token. -/
theorem tokens_unary (i : ℕ) : tokens (unaryHeadline i) = [unaryHeadline i] := by
  unfold tokens
  rw [splitOnSpace_no_space _ (fun c hc => by
    rw [List.eq_of_mem_replicate hc]
    decide)]
  simp

/-- Two distinct unary headlines have Jaccard similarity 0. -/
theorem similarity_unary (i j : ℕ) (hij : i ≠ j) :
    similarity (unaryHeadline i) (unaryHeadline j) = 0 := by
  have hne : unaryHeadline i ≠ unaryHeadline j := by
    intro h
    exact hij (by simpa [unaryHeadline] using congrArg List.length h)
  unfold similarity interTokens
  rw [tokens_unary, tokens_unary]
  simp [hne]

/-- Peeling the first and last element off a mapped range. -/
theorem range_map_decomp (f : ℕ → Text) (n : ℕ) :
    (List.range (n + 2)).map f =
      (f 0 :: (List.range n).map (fun i => f (i + 1))) ++ [f (n + 1)] := by
  rw [List.range_succ, List.map_append, List.range_succ_eq_map,
    List.map_cons, List.map_map]
  rfl

/-- The capacity run, described as a range map. -/
theorem dedupRunAll_eq_range_map :
    dedupRunAll = (List.range 1001).map unaryHeadline := by
  have h := range_map_decomp unaryHeadline 999
  rw [show (999 + 2 : ℕ) = 1001 from rfl, show (999 + 1 : ℕ) = 1000 from rfl] at h
  rw [h]
  rfl

/-- Normalization fixes every element of the capacity run. -/
theorem dedupRunAll_map_normalize :
    dedupRunAll.map normalizeHeadline = dedupRunAll := by
  rw [dedupRunAll_eq_range_map, List.map_map]
  refine List.map_congr_left ?_
  intro i _
  exact normalizeHeadline_unary i

/-- The normalized capacity run has no duplicates. -/
theorem dedupRunAll_nodup : (dedupRunAll.map normalizeHeadline).Nodup := by
  rw [dedupRunAll_map_normalize, dedupRunAll_eq_range_map]
  refine List.Nodup.map ?_ (List.nodup_range 1001)
  intro i j h
  simpa [unaryHeadline] using congrArg List.length h

/-- Distinct members of the normalized capacity run are never
near-duplicates. -/
theorem dedupRunAll_dissimilar :
    ∀ a ∈ dedupRunAll.map normalizeHeadline,
      ∀ b ∈ dedupRunAll.map normalizeHeadline, a ≠ b →
        ¬ (0.8 : ℚ) < similarity a b := by
  rw [dedupRunAll_map_normalize, dedupRunAll_eq_range_map]
  intro a ha b hb hab
  rcases List.mem_map.mp ha with ⟨i, -, rfl⟩
  rcases List.mem_map.mp hb with ⟨j, -, rfl⟩
  have hij : i ≠ j := fun h => hab (by rw [h])
  rw [similarity_unary i j hij]
  norm_num

/-- Witness for C5: the 1001 unary headlines, pairwise distinct and
dissimilar; after the run the set has 1000 entries, the first headline is
gone and is accepted again. -/
theorem dedup_capacity_witness :
    (dedupRunMid.length = 999 ∧
      (((unaryHeadline 0 :: dedupRunMid) ++ [unaryHeadline 1000]).map
        normalizeHeadline).Nodup) ∧
    ((runDedup ⟨[]⟩ ((unaryHeadline 0 :: dedupRunMid) ++
        [unaryHeadline 1000])).seen.length = 1000 ∧
      normalizeHeadline (unaryHeadline 0) ∉
        (runDedup ⟨[]⟩ ((unaryHeadline 0 :: dedupRunMid) ++
          [unaryHeadline 1000])).seen ∧
      (isNewHeadline (runDedup ⟨[]⟩ ((unaryHeadline 0 :: dedupRunMid) ++
        [unaryHeadline 1000])) (unaryHeadline 0)).1 = true) := by
  have hmidlen : dedupRunMid.length = 999 := by
    simp [dedupRunMid]
  have hnodup : (((unaryHeadline 0 :: dedupRunMid) ++ [unaryHeadline 1000]).map
      normalizeHeadline).Nodup := dedupRunAll_nodup
  have h := dedup_capacity (unaryHeadline 0) dedupRunMid (unaryHeadline 1000)
    hmidlen hnodup dedupRunAll_dissimilar
  exact ⟨⟨hmidlen, hnodup⟩, h.2.2.1, h.2.2.2.1, h.2.2.2.2⟩

end C5

end GrokNewsArb
